import Mathlib

/-!
Verification of the NBA value-betting bot (`src/bot.py`).

The core pipeline is embedded shallowly:

* the Rating Store (`get_team_stats`),
* the Model Estimator (`model_probability` via `estimate` and `logistic`),
* the Market Matcher (`get_polymarket_probs` with its title matching and
  outcome-resolution loop),
* the Edge Classifier (`classify_edge`),
* the Report Builder and the orchestration dispatch (`build_report`,
  `main_message`).

External collaborators are passed as explicit parameters: the fuzzy scorer
`fuzz.partial_ratio` becomes a parameter `fz : String → String → ℕ`, the
HTTP-fetched market list becomes a `List Market` argument, the current time
and the float formatters used by Python f-strings become `String`-valued
parameters.  Python floats are modelled by `ℝ` (for the logistic transform)
and `ℚ` (for ratings and market prices, which are decimal data).  Python
string methods `lower`, `replace` and `strip` are modelled by
structurally-recursive functions over the character list (ASCII lowering,
which is all the data in this program exercises).
-/

namespace NBABot

/-! ### Python string primitives -/

/-- ASCII lower-casing of one character, modelling `str.lower` per character. -/
def lowerChar (c : Char) : Char :=
  if 'A' ≤ c ∧ c ≤ 'Z' then Char.ofNat (c.toNat + 32) else c

/-- `s.lower()`. -/
def pyLower (s : String) : String :=
  ⟨s.data.map lowerChar⟩

/-- Does `pat` occur at the head of `l`? -/
def isPrefL : List Char → List Char → Bool
  | [], _ => true
  | _ :: _, [] => false
  | a :: as, b :: bs => a = b && isPrefL as bs

/-- Does `needle` occur somewhere inside `l`? -/
def isSubL (needle : List Char) : List Char → Bool
  | [] => isPrefL needle []
  | c :: rest => isPrefL needle (c :: rest) || isSubL needle rest

/-- Left-to-right, non-overlapping replacement of every occurrence of `pat`
by `rep`, as Python `str.replace` does for a non-empty pattern.  The fuel
argument (instantiated with the length of the input) keeps the recursion
structural; one unit of fuel is spent per consumed character, which
suffices because `pat` is non-empty at every use site. -/
def replFuel (pat rep : List Char) : ℕ → List Char → List Char
  | 0, l => l
  | _ + 1, [] => []
  | fuel + 1, c :: rest =>
    if pat ≠ [] ∧ isPrefL pat (c :: rest) then
      rep ++ replFuel pat rep fuel (List.drop (pat.length - 1) rest)
    else
      c :: replFuel pat rep fuel rest

/-- `s.replace(pat, rep)` for a non-empty `pat`. -/
def pyReplace (s pat rep : String) : String :=
  ⟨replFuel pat.data rep.data s.data.length s.data⟩

/-- ASCII whitespace, the characters `str.strip` removes in this program. -/
def isSpaceChar (c : Char) : Bool :=
  c = ' ' || c = '\t' || c = '\n' || c = '\r'

/-- `s.strip()`. -/
def pyStrip (s : String) : String :=
  ⟨(((s.data.dropWhile isSpaceChar).reverse.dropWhile isSpaceChar).reverse)⟩

/-! ### Rating Store (`get_team_stats`, `src/bot.py` lines 82–112) -/

/-- A team's offensive/defensive rating pair. -/
structure Rating where
  off_rating : ℚ
  def_rating : ℚ
deriving DecidableEq

/-- The Rating Store: the mock dictionary of `get_team_stats`, with the
`110.0/110.0` default for identifiers outside it. -/
def get_team_stats (team_id : ℕ) : Rating :=
  if team_id = 14 then ⟨115.2, 108.7⟩
  else if team_id = 2 then ⟨118.5, 110.2⟩
  else if team_id = 17 then ⟨112.8, 109.1⟩
  else if team_id = 15 then ⟨110.3, 107.8⟩
  else ⟨110, 110⟩

/-- Net rating: offense minus defense. -/
def net (r : Rating) : ℚ :=
  r.off_rating - r.def_rating

/-! ### Model Estimator (`model_probability`, lines 184–215) -/

/-- The logistic transform `1 / (1 + exp (-d / 10))` of line 202. -/
noncomputable def logistic (d : ℝ) : ℝ :=
  1 / (1 + Real.exp (-d / 10))

/-- The rating-pair core of `model_probability`: logistic of the net-rating
difference, the defensive clamp of line 205, and `p_away = 1 - p_home`. -/
noncomputable def estimate (home away : Rating) : ℝ × ℝ :=
  let diff : ℝ := (net home : ℝ) - (net away : ℝ)
  let prob_home : ℝ := max 0 (min 1 (logistic diff))
  (prob_home, 1 - prob_home)

/-- `model_probability`: look both teams up in the Rating Store and estimate. -/
noncomputable def model_probability (home_team_id away_team_id : ℕ) : ℝ × ℝ :=
  estimate (get_team_stats home_team_id) (get_team_stats away_team_id)

/-! ### Edge Classifier (`classify_edge`, lines 218–229) -/

/-- `classify_edge`: label, marker and the unclamped edge. -/
noncomputable def classify_edge (model_prob market_prob : ℝ) : String × String × ℝ :=
  let edge := model_prob - market_prob
  if edge ≥ 0.07 then ("GOOD BET", "üí°", edge)
  else if edge ≥ 0.03 then ("SMALL EDGE", "üìà", edge)
  else ("NO BET", "üß±", edge)

/-! ### Market Matcher (`get_polymarket_probs`, lines 115–181) -/

/-- One market quote from the quote source: the optional `question` title
(`'question' in market` is a key test in the source) and the parallel
outcome/price lists.  A price is `none` when missing/null. -/
structure Market where
  question : Option String
  outcomes : List String
  prices : List (Option ℚ)

/-- The four name variants of lines 138–141: lower-cased original and
lower-cased with spaces removed / replaced by a hyphen / an underscore. -/
def name_variants (team : String) : List String :=
  [pyLower team, pyLower (pyReplace team " " ""),
   pyLower (pyReplace team " " "-"), pyLower (pyReplace team " " "_")]

/-- Title normalisation of line 144: strip `"will the"`, turn `"win vs"`
into `"vs"`, trim whitespace. -/
def clean_title (title : String) : String :=
  pyStrip (pyReplace (pyReplace title "will the" "") "win vs" "vs")

/-- Lines 147–148: some variant scores above 75 against the cleaned title. -/
def found_in_title (fz : String → String → ℕ) (team title_c : String) : Bool :=
  (name_variants team).any (fun v => 75 < fz v title_c)

/-- A quote is a candidate when it has a title and both teams are found in
it (the `home_found and away_found` test of line 150). -/
def title_candidate (fz : String → String → ℕ) (home_team away_team : String)
    (m : Market) : Bool :=
  match m.question with
  | none => false
  | some q =>
    let title_c := clean_title (pyLower q)
    found_in_title fz home_team title_c && found_in_title fz away_team title_c

/-- The outcome-index loop of lines 156–165: walk the outcome labels,
overwriting `home_outcome_idx` on a home hit and — only `elif` the home
test failed — `away_outcome_idx` on an away hit.  `none` models the `-1`
sentinel. -/
def resolve_loop (fz : String → String → ℕ) (home_team away_team : String) :
    List String → ℕ → Option ℕ × Option ℕ → Option ℕ × Option ℕ
  | [], _, acc => acc
  | o :: rest, i, acc =>
    let outcome_text := pyLower o
    if 75 < fz (pyLower home_team) outcome_text then
      resolve_loop fz home_team away_team rest (i + 1) (some i, acc.2)
    else if 75 < fz (pyLower away_team) outcome_text then
      resolve_loop fz home_team away_team rest (i + 1) (acc.1, some i)
    else
      resolve_loop fz home_team away_team rest (i + 1) acc

/-- The loop started from `(-1, -1)` at index 0. -/
def resolve_outcomes (fz : String → String → ℕ) (home_team away_team : String)
    (outcomes : List String) : Option ℕ × Option ℕ :=
  resolve_loop fz home_team away_team outcomes 0 (none, none)

/-- The price default of lines 168–169: a missing or falsy (zero) price
becomes `0.5`, any other price is taken as is. -/
def price_val : Option ℚ → ℚ
  | none => 0.5
  | some v => if v = 0 then 0.5 else v

/-- What scanning one quote does: `skip` (loop continues with the next
quote), `err` (an index error escapes to the `except` handler, ending the
whole scan with the neutral pair), or `found p` (the `return` of line 172). -/
inductive ScanResult where
  | skip : ScanResult
  | err : ScanResult
  | found : ℚ × ℚ → ScanResult
deriving DecidableEq

/-- One iteration of the market loop (lines 133–172) on one quote. -/
def try_market (fz : String → String → ℕ) (home_team away_team : String)
    (m : Market) : ScanResult :=
  match m.question with
  | none => .skip
  | some q =>
    let title_c := clean_title (pyLower q)
    if found_in_title fz home_team title_c && found_in_title fz away_team title_c then
      if 2 ≤ m.outcomes.length ∧ 2 ≤ m.prices.length then
        match resolve_outcomes fz home_team away_team m.outcomes with
        | (some hi, some ai) =>
          match m.prices.get? hi, m.prices.get? ai with
          | some hp, some ap => .found (price_val hp, price_val ap)
          | _, _ => .err
        | _ => .skip
      else .skip
    else .skip

/-- The Market Matcher over a quote list: first quote whose scan returns
`found` wins; an in-loop index error returns the neutral pair via the
`except` handler; a fully skipped list falls through to line 176. -/
def get_polymarket_probs (fz : String → String → ℕ) (home_team away_team : String) :
    List Market → ℚ × ℚ
  | [] => (0.5, 0.5)
  | m :: rest =>
    match try_market fz home_team away_team m with
    | .skip => get_polymarket_probs fz home_team away_team rest
    | .err => (0.5, 0.5)
    | .found p => p

/-! ### Report Builder and orchestration (`build_report`, `main`, lines 232–305) -/

/-- One game record from the game-listing source. -/
structure Game where
  game_id : String
  date : String
  home_team : String
  away_team : String
  home_team_id : ℕ
  away_team_id : ℕ

/-- The six report lines one game contributes (lines 241–270).  `pct`
models the `:.1%` float formatter and `fmt1` the `:.1f` formatter. -/
noncomputable def game_block (fz : String → String → ℕ) (markets : List Market)
    (pct : ℝ → String) (fmt1 : ℚ → String) (g : Game) : List String :=
  let pm := get_polymarket_probs fz g.home_team g.away_team markets
  let mo := model_probability g.home_team_id g.away_team_id
  let ce := classify_edge mo.1 ((pm.1 : ℝ))
  let home_stats := get_team_stats g.home_team_id
  let away_stats := get_team_stats g.away_team_id
  [ce.2.1 ++ " <b>" ++ g.home_team ++ " vs " ++ g.away_team ++ "</b>",
   "Market: " ++ pct ((pm.1 : ℝ)) ++ " vs " ++ pct ((pm.2 : ℝ)),
   "Model: " ++ pct mo.1 ++ " vs " ++ pct mo.2,
   "Edge: " ++ pct ce.2.2 ++ " (" ++ ce.1 ++ ")",
   "Reason: " ++ g.home_team ++ " Net Rating: " ++ fmt1 (net home_stats) ++
     ", " ++ g.away_team ++ " Net Rating: " ++ fmt1 (net away_stats),
   ""]

/-- All report lines: the three header lines then every game's block. -/
noncomputable def report_lines (fz : String → String → ℕ) (markets : List Market)
    (pct : ℝ → String) (fmt1 : ℚ → String) (now : String) (games : List Game) :
    List String :=
  ["üèÄ NBA Value Betting Report", "Date: " ++ now, ""] ++
    (games.map (game_block fz markets pct fmt1)).flatten

/-- `build_report`: the joined report text. -/
noncomputable def build_report (fz : String → String → ℕ) (markets : List Market)
    (pct : ℝ → String) (fmt1 : ℚ → String) (now : String) (games : List Game) :
    String :=
  String.intercalate "\n" (report_lines fz markets pct fmt1 now games)

/-- The fixed message of line 286. -/
def no_games_message : String :=
  "üèÄ NBA Value Betting Report\n\nNo games scheduled for today."

/-- The message `main` sends (lines 285–292): the fixed no-games text when
the game list is empty (`if not games`), otherwise the built report. -/
noncomputable def main_message (fz : String → String → ℕ) (markets : List Market)
    (pct : ℝ → String) (fmt1 : ℚ → String) (now : String) (games : List Game) :
    String :=
  if games.isEmpty then no_games_message
  else build_report fz markets pct fmt1 now games

/-! ### Concrete instruments for witnesses and counterexamples -/

/-- A concrete stand-in for `fuzz.partial_ratio` used on concrete inputs:
score 100 when the first string occurs inside the second, 0 otherwise.
`fuzz.partial_ratio` also returns 100 on every such substring pair and a
score below 75 on the disjoint pairs used here. -/
def subScore (a b : String) : ℕ :=
  if isSubL a.data b.data then 100 else 0

/-- A quote whose title mentions both teams but whose outcome labels
(`Yes`/`No`) resolve to neither team. -/
def mkt_unresolved : Market :=
  ⟨some "Will the Lakers win vs Celtics?", ["Yes", "No"], [some 0.7, some 0.3]⟩

/-- A quote whose title mentions both teams and whose outcome labels are the
team names themselves. -/
def mkt_resolved : Market :=
  ⟨some "Lakers vs Celtics", ["Lakers", "Celtics"], [some 0.7, some 0.3]⟩

/-- A quote about two other teams. -/
def mkt_other : Market :=
  ⟨some "Celtics vs Heat", ["Celtics", "Heat"], [some 0.6, some 0.4]⟩

/-- A concrete game record (the first mock game of `get_today_games`). -/
def demo_game : Game :=
  ⟨"1", "2026-10-12", "Los Angeles Lakers", "Boston Celtics", 14, 2⟩

/-! ### Helper lemmas: the logistic transform -/

theorem logistic_pos (d : ℝ) : 0 < logistic d := by
  unfold logistic
  positivity

theorem logistic_lt_one (d : ℝ) : logistic d < 1 := by
  unfold logistic
  rw [div_lt_one (by positivity)]
  linarith [Real.exp_pos (-d / 10)]

theorem logistic_lt_logistic {x y : ℝ} (h : x < y) : logistic x < logistic y := by
  unfold logistic
  have h2 : 0 < 1 + Real.exp (-y / 10) := by positivity
  have h1 : Real.exp (-y / 10) < Real.exp (-x / 10) := Real.exp_lt_exp.mpr (by linarith)
  gcongr

theorem clamp_logistic (d : ℝ) : max 0 (min 1 (logistic d)) = logistic d := by
  rw [min_eq_right (logistic_lt_one d).le, max_eq_right (logistic_pos d).le]

theorem logistic_zero : logistic 0 = 1 / 2 := by
  unfold logistic
  norm_num [Real.exp_zero]

/-! ### Helper lemmas: the outcome-resolution loop -/

/-- The home test of line 162 as a Boolean predicate on one outcome label. -/
def home_hit (fz : String → String → ℕ) (home_team o : String) : Bool :=
  decide (75 < fz (pyLower home_team) (pyLower o))

/-- The away test of line 164 as executed: only reached when the home test
failed (the `elif`). -/
def away_hit (fz : String → String → ℕ) (home_team away_team o : String) : Bool :=
  !home_hit fz home_team o && decide (75 < fz (pyLower away_team) (pyLower o))

/-- First-`some` choice, modelling later loop iterations overwriting the
index variables. -/
def oOr : Option ℕ → Option ℕ → Option ℕ
  | some j, _ => some j
  | none, b => b

/-- The index (counting from `i`) of the last element of `l` satisfying
`p`; `none` when no element does.  This is the spec-side description of
what the overwriting loop of lines 160–165 leaves in an index variable. -/
def last_match (p : String → Bool) : List String → ℕ → Option ℕ
  | [], _ => none
  | o :: rest, i =>
    match last_match p rest (i + 1) with
    | some j => some j
    | none => if p o then some i else none

theorem oOr_none (x : Option ℕ) : oOr x none = x := by
  cases x <;> rfl

theorem last_match_cons (p : String → Bool) (o : String) (rest : List String) (i : ℕ) :
    last_match p (o :: rest) i =
      oOr (last_match p rest (i + 1)) (if p o then some i else none) := by
  simp only [last_match]
  cases last_match p rest (i + 1) <;> simp [oOr]

theorem resolve_loop_eq (fz : String → String → ℕ) (home_team away_team : String)
    (l : List String) : ∀ (i : ℕ) (acc : Option ℕ × Option ℕ),
    resolve_loop fz home_team away_team l i acc =
      (oOr (last_match (home_hit fz home_team) l i) acc.1,
       oOr (last_match (away_hit fz home_team away_team) l i) acc.2) := by
  induction l with
  | nil => intro i acc; rfl
  | cons o rest ih =>
    intro i acc
    rw [last_match_cons, last_match_cons]
    simp only [resolve_loop]
    by_cases hh : 75 < fz (pyLower home_team) (pyLower o)
    · have h1 : home_hit fz home_team o = true := by simp [home_hit, hh]
      have h2 : away_hit fz home_team away_team o = false := by simp [away_hit, h1]
      rw [if_pos hh, ih]
      cases hx : last_match (home_hit fz home_team) rest (i + 1) <;>
        cases hy : last_match (away_hit fz home_team away_team) rest (i + 1) <;>
          simp [oOr, h1, h2]
    · have h1 : home_hit fz home_team o = false := by simp [home_hit, hh]
      rw [if_neg hh]
      by_cases ha : 75 < fz (pyLower away_team) (pyLower o)
      · have h2 : away_hit fz home_team away_team o = true := by
          simp [away_hit, h1, ha]
        rw [if_pos ha, ih]
        cases hx : last_match (home_hit fz home_team) rest (i + 1) <;>
          cases hy : last_match (away_hit fz home_team away_team) rest (i + 1) <;>
            simp [oOr, h1, h2]
      · have h2 : away_hit fz home_team away_team o = false := by
          simp [away_hit, h1, ha]
        rw [if_neg ha, ih]
        cases hx : last_match (home_hit fz home_team) rest (i + 1) <;>
          cases hy : last_match (away_hit fz home_team away_team) rest (i + 1) <;>
            simp [oOr, h1, h2]

theorem last_match_eq_none (p : String → Bool) :
    ∀ (l : List String) (i : ℕ), last_match p l i = none ↔ ∀ o ∈ l, p o = false := by
  intro l
  induction l with
  | nil => intro i; simp [last_match]
  | cons o rest ih =>
    intro i
    rw [last_match_cons]
    cases hx : last_match p rest (i + 1) with
    | some j =>
      simp only [oOr]
      constructor
      · intro h; cases h
      · intro h
        have hrest : last_match p rest (i + 1) = none :=
          (ih (i + 1)).mpr fun o' ho' => h o' (List.mem_cons_of_mem _ ho')
        rw [hx] at hrest; cases hrest
    | none =>
      have hr := (ih (i + 1)).mp hx
      by_cases hp : p o <;> simp [oOr, hp]
      exact fun a ha => hr a ha

theorem last_match_spec (p : String → Bool) :
    ∀ (l : List String) (i j : ℕ), last_match p l i = some j →
      i ≤ j ∧ j - i < l.length ∧ p (l.getD (j - i) "") = true ∧
      ∀ k, j - i < k → k < l.length → p (l.getD k "") = false := by
  intro l
  induction l with
  | nil => intro i j h; cases h
  | cons o rest ih =>
    intro i j h
    rw [last_match_cons] at h
    cases hx : last_match p rest (i + 1) with
    | some j' =>
      rw [hx] at h
      simp only [oOr] at h
      have hj : j' = j := Option.some.inj h
      rw [← hj]
      obtain ⟨hij, hlen, hp, hall⟩ := ih (i + 1) j' hx
      have hji : j' - i = (j' - (i + 1)) + 1 := by omega
      refine ⟨by omega, by simp; omega, ?_, ?_⟩
      · rw [hji]
        simpa [List.getD] using hp
      · intro k hk1 hk2
        obtain ⟨k', rfl⟩ : ∃ k', k = k' + 1 := ⟨k - 1, by omega⟩
        simp only [List.getD_cons_succ]
        exact hall k' (by omega) (by simpa using hk2)
    | none =>
      rw [hx] at h
      simp only [oOr] at h
      by_cases hp : p o
      · rw [if_pos hp] at h
        injection h with h
        subst h
        refine ⟨le_refl _, by simp, by simpa using hp, ?_⟩
        intro k hk1 hk2
        obtain ⟨k', rfl⟩ : ∃ k', k = k' + 1 := ⟨k - 1, by omega⟩
        simp only [List.getD_cons_succ]
        have hk' : k' < rest.length := by simpa using hk2
        have : rest.getD k' "" ∈ rest := by
          rw [List.getD_eq_getElem?_getD, List.getElem?_eq_getElem hk']
          exact List.getElem_mem hk'
        exact (last_match_eq_none p rest (i + 1)).mp hx _ this
      · rw [if_neg hp] at h
        cases h

/-! ### Helper lemmas: the market-scanning loop -/

theorem try_market_skip_of_not_candidate (fz : String → String → ℕ)
    (home_team away_team : String) (m : Market)
    (h : title_candidate fz home_team away_team m = false) :
    try_market fz home_team away_team m = .skip := by
  cases hq : m.question with
  | none => simp [try_market, hq]
  | some q =>
    have h' : (found_in_title fz home_team (clean_title (pyLower q)) &&
        found_in_title fz away_team (clean_title (pyLower q))) = false := by
      simpa [title_candidate, hq] using h
    simp only [try_market, hq]
    rw [if_neg (by simp [h'])]

/-! ### Claim theorems -/

/-- C1: for every pair of probabilities the Edge Classifier returns the
unclamped (possibly negative) edge `model_p - market_p`, labels GOOD BET
when `edge ≥ 0.07`, SMALL EDGE when `0.03 ≤ edge < 0.07`, NO BET
otherwise; and the four quoted concrete classifications hold, including
edge `-0.10` for `classify(0.40, 0.50)`. -/
theorem classify_edge_spec (mp mk : ℝ) :
    (classify_edge mp mk).2.2 = mp - mk ∧
    (mp - mk ≥ 0.07 → (classify_edge mp mk).1 = "GOOD BET") ∧
    (0.03 ≤ mp - mk ∧ mp - mk < 0.07 → (classify_edge mp mk).1 = "SMALL EDGE") ∧
    (mp - mk < 0.03 → (classify_edge mp mk).1 = "NO BET") ∧
    (classify_edge 0.60 0.50).1 = "GOOD BET" ∧
    (classify_edge 0.54 0.50).1 = "SMALL EDGE" ∧
    (classify_edge 0.51 0.50).1 = "NO BET" ∧
    (classify_edge 0.40 0.50).1 = "NO BET" ∧
    (classify_edge 0.40 0.50).2.2 = -0.10 := by
  refine ⟨?_, ?_, ?_, ?_, ?_, ?_, ?_, ?_, ?_⟩
  · simp only [classify_edge]
    split_ifs <;> rfl
  · intro h
    simp only [classify_edge]
    rw [if_pos h]
  · intro h
    simp only [classify_edge]
    rw [if_neg (not_le.mpr h.2), if_pos h.1]
  · intro h
    simp only [classify_edge]
    rw [if_neg (not_le.mpr (h.trans_le (by norm_num))), if_neg (not_le.mpr h)]
  · norm_num [classify_edge]
  · norm_num [classify_edge]
  · norm_num [classify_edge]
  · norm_num [classify_edge]
  · norm_num [classify_edge]

theorem classify_edge_spec_witness :
    (0.60 : ℝ) - 0.50 ≥ 0.07 ∧ (classify_edge 0.60 0.50).1 = "GOOD BET" :=
  ⟨by norm_num, (classify_edge_spec 0.60 0.50).2.1 (by norm_num)⟩

/-- C2: the Model Estimator returns `p_home` equal to the logistic
transform `1 / (1 + e^(-diff / 10))` of the net-rating difference (the
defensive clamp changes nothing), `p_away = 1 - p_home`, and exactly
`(0.5, 0.5)` whenever the two net ratings are equal. -/
theorem estimate_spec (home away : Rating) :
    (estimate home away).1 = logistic ((net home : ℝ) - (net away : ℝ)) ∧
    (estimate home away).2 = 1 - (estimate home away).1 ∧
    (net home = net away → estimate home away = (1 / 2, 1 / 2)) := by
  refine ⟨?_, rfl, ?_⟩
  · simp only [estimate]
    exact clamp_logistic _
  · intro h
    have hd : ((net home : ℝ) - (net away : ℝ)) = 0 := by rw [h]; ring
    simp only [estimate, hd, logistic_zero]
    norm_num

theorem estimate_spec_witness :
    net ⟨110, 110⟩ = net ⟨110, 110⟩ ∧
    estimate ⟨110, 110⟩ ⟨110, 110⟩ = (1 / 2, 1 / 2) :=
  ⟨rfl, (estimate_spec ⟨110, 110⟩ ⟨110, 110⟩).2.2 rfl⟩

/-- C6: the two probabilities the Model Estimator returns sum to 1 and
each lies in [0, 1]; and `p_home` is strictly increasing in the net-rating
difference, through the defensive clamp. -/
theorem estimate_props (h1 a1 h2 a2 : Rating) :
    (estimate h1 a1).1 + (estimate h1 a1).2 = 1 ∧
    (0 ≤ (estimate h1 a1).1 ∧ (estimate h1 a1).1 ≤ 1) ∧
    (0 ≤ (estimate h1 a1).2 ∧ (estimate h1 a1).2 ≤ 1) ∧
    (net h1 - net a1 < net h2 - net a2 →
      (estimate h1 a1).1 < (estimate h2 a2).1) := by
  have e1 : (estimate h1 a1).1 = logistic ((net h1 : ℝ) - (net a1 : ℝ)) := by
    simp only [estimate]
    exact clamp_logistic _
  have e2 : (estimate h2 a2).1 = logistic ((net h2 : ℝ) - (net a2 : ℝ)) := by
    simp only [estimate]
    exact clamp_logistic _
  have e1b : (estimate h1 a1).2 = 1 - (estimate h1 a1).1 := rfl
  refine ⟨by rw [e1b]; ring, ⟨?_, ?_⟩, ⟨?_, ?_⟩, ?_⟩
  · rw [e1]
    exact (logistic_pos _).le
  · rw [e1]
    exact (logistic_lt_one _).le
  · rw [e1b, e1]
    linarith [logistic_lt_one ((net h1 : ℝ) - (net a1 : ℝ))]
  · rw [e1b, e1]
    linarith [logistic_pos ((net h1 : ℝ) - (net a1 : ℝ))]
  · intro hlt
    rw [e1, e2]
    apply logistic_lt_logistic
    have hc : ((net h1 - net a1 : ℚ) : ℝ) < ((net h2 - net a2 : ℚ) : ℝ) := by
      exact_mod_cast hlt
    push_cast at hc
    linarith

theorem estimate_props_witness :
    net ⟨110, 110⟩ - net ⟨110, 110⟩ < net ⟨115.2, 108.7⟩ - net ⟨110, 110⟩ ∧
    (estimate ⟨110, 110⟩ ⟨110, 110⟩).1 < (estimate ⟨115.2, 108.7⟩ ⟨110, 110⟩).1 :=
  ⟨by norm_num [net],
   (estimate_props ⟨110, 110⟩ ⟨110, 110⟩ ⟨115.2, 108.7⟩ ⟨110, 110⟩).2.2.2
     (by norm_num [net])⟩

/-- C7: the Rating Store is total: every identifier outside the stored
dictionary gets the fixed neutral rating `110.0/110.0`, and the four known
identifiers get their stored pairs. -/
theorem get_team_stats_spec (team_id : ℕ) :
    (team_id ≠ 14 → team_id ≠ 2 → team_id ≠ 17 → team_id ≠ 15 →
      get_team_stats team_id = ⟨110, 110⟩) ∧
    get_team_stats 14 = ⟨115.2, 108.7⟩ ∧ get_team_stats 2 = ⟨118.5, 110.2⟩ ∧
    get_team_stats 17 = ⟨112.8, 109.1⟩ ∧ get_team_stats 15 = ⟨110.3, 107.8⟩ := by
  refine ⟨?_, rfl, rfl, rfl, rfl⟩
  intro h14 h2 h17 h15
  simp [get_team_stats, h14, h2, h17, h15]

theorem get_team_stats_spec_witness :
    (99 : ℕ) ≠ 14 ∧ get_team_stats 99 = ⟨110, 110⟩ :=
  ⟨by decide,
   (get_team_stats_spec 99).1 (by decide) (by decide) (by decide) (by decide)⟩

/-- C3 counterexample: with outcome labels `["Celtics", "Lakers", "Lakers"]`
the home name crosses the threshold first at index 1, but the loop assigns
the home side index 2 — the last crossing index, not the first. -/
theorem resolve_first_idx_cex :
    home_hit subScore "Lakers" ((["Celtics", "Lakers", "Lakers"] : List String).getD 1 "") = true ∧
    (resolve_outcomes subScore "Lakers" "Celtics" ["Celtics", "Lakers", "Lakers"]).1 = some 2 ∧
    (2 : ℕ) ≠ 1 := by
  decide

/-- C3 (amended): within the matched quote each outcome label is tested
against the raw lower-cased team names at threshold 75, the away test only
running when the home test fails; for each side the LAST outcome index
whose score crosses the threshold is the index assigned to that side
(`last_match` returns the greatest crossing index, as the second and third
conjuncts state). -/
theorem resolve_outcomes_last_match (fz : String → String → ℕ)
    (home_team away_team : String) (outcomes : List String) :
    resolve_outcomes fz home_team away_team outcomes =
      (last_match (home_hit fz home_team) outcomes 0,
       last_match (away_hit fz home_team away_team) outcomes 0) ∧
    (∀ j, last_match (home_hit fz home_team) outcomes 0 = some j →
      j < outcomes.length ∧ home_hit fz home_team (outcomes.getD j "") = true ∧
      ∀ k, j < k → k < outcomes.length →
        home_hit fz home_team (outcomes.getD k "") = false) ∧
    (∀ j, last_match (away_hit fz home_team away_team) outcomes 0 = some j →
      j < outcomes.length ∧
      away_hit fz home_team away_team (outcomes.getD j "") = true ∧
      ∀ k, j < k → k < outcomes.length →
        away_hit fz home_team away_team (outcomes.getD k "") = false) := by
  refine ⟨?_, ?_, ?_⟩
  · rw [resolve_outcomes, resolve_loop_eq]
    simp [oOr_none]
  · intro j hj
    have h := last_match_spec (home_hit fz home_team) outcomes 0 j hj
    simpa using h
  · intro j hj
    have h := last_match_spec (away_hit fz home_team away_team) outcomes 0 j hj
    simpa using h

theorem resolve_outcomes_last_match_witness :
    last_match (home_hit subScore "Lakers") ["Celtics", "Lakers", "Lakers"] 0 = some 2 ∧
    (2 < (["Celtics", "Lakers", "Lakers"] : List String).length ∧
     home_hit subScore "Lakers" ((["Celtics", "Lakers", "Lakers"] : List String).getD 2 "") = true ∧
     ∀ k, 2 < k → k < (["Celtics", "Lakers", "Lakers"] : List String).length →
       home_hit subScore "Lakers" ((["Celtics", "Lakers", "Lakers"] : List String).getD k "") = false) :=
  ⟨by decide,
   (resolve_outcomes_last_match subScore "Lakers" "Celtics"
     ["Celtics", "Lakers", "Lakers"]).2.1 2 (by decide)⟩

/-- C10: whenever the outcome-resolution loop resolves both sides, the two
indices are distinct — an outcome that crossed the home threshold is never
assigned to the away side (the `elif` guarantees it), so the two prices
are read from different entries. -/
theorem resolve_outcomes_distinct (fz : String → String → ℕ)
    (home_team away_team : String) (outcomes : List String) (hi ai : ℕ)
    (h : resolve_outcomes fz home_team away_team outcomes = (some hi, some ai)) :
    hi ≠ ai := by
  rw [resolve_outcomes, resolve_loop_eq] at h
  simp only [oOr_none] at h
  have hH : last_match (home_hit fz home_team) outcomes 0 = some hi :=
    congrArg Prod.fst h
  have hA : last_match (away_hit fz home_team away_team) outcomes 0 = some ai :=
    congrArg Prod.snd h
  have sH := last_match_spec (home_hit fz home_team) outcomes 0 hi hH
  have sA := last_match_spec (away_hit fz home_team away_team) outcomes 0 ai hA
  intro heq
  subst heq
  have hhome : home_hit fz home_team (outcomes.getD (hi - 0) "") = true := sH.2.2.1
  have haway : away_hit fz home_team away_team (outcomes.getD (hi - 0) "") = true :=
    sA.2.2.1
  rw [away_hit, hhome] at haway
  simp at haway

theorem resolve_outcomes_distinct_witness :
    resolve_outcomes subScore "Lakers" "Celtics" ["Celtics", "Lakers"] = (some 1, some 0) ∧
    (1 : ℕ) ≠ 0 :=
  ⟨by decide,
   resolve_outcomes_distinct subScore "Lakers" "Celtics" ["Celtics", "Lakers"] 1 0
     (by decide)⟩

/-- C4 counterexample: the first candidate quote (`mkt_unresolved`, whose
title mentions both teams) has outcomes resolving to neither side, yet the
matcher does not return the neutral pair: it scans on and returns the
prices of the later quote `mkt_resolved`. -/
theorem first_candidate_cex :
    title_candidate subScore "Lakers" "Celtics" mkt_unresolved = true ∧
    resolve_outcomes subScore "Lakers" "Celtics" mkt_unresolved.outcomes = (none, none) ∧
    get_polymarket_probs subScore "Lakers" "Celtics" [mkt_unresolved, mkt_resolved] =
      (0.7, 0.3) ∧
    ((0.7 : ℚ), (0.3 : ℚ)) ≠ ((0.5 : ℚ), (0.5 : ℚ)) := by
  refine ⟨by decide, by decide, ?_, by norm_num⟩
  rw [show get_polymarket_probs subScore "Lakers" "Celtics" [mkt_unresolved, mkt_resolved] =
      match try_market subScore "Lakers" "Celtics" mkt_unresolved with
      | .skip => get_polymarket_probs subScore "Lakers" "Celtics" [mkt_resolved]
      | .err => (0.5, 0.5)
      | .found p => p from rfl]
  rw [show try_market subScore "Lakers" "Celtics" mkt_unresolved = .skip from by decide]
  rw [show get_polymarket_probs subScore "Lakers" "Celtics" [mkt_resolved] =
      match try_market subScore "Lakers" "Celtics" mkt_resolved with
      | .skip => get_polymarket_probs subScore "Lakers" "Celtics" []
      | .err => (0.5, 0.5)
      | .found p => p from rfl]
  have h : try_market subScore "Lakers" "Celtics" mkt_resolved = .found (0.7, 0.3) := by
    simp only [try_market, mkt_resolved]
    rw [if_pos (by decide), if_pos (by decide),
      show resolve_outcomes subScore "Lakers" "Celtics" ["Lakers", "Celtics"] =
        (some 0, some 1) from by decide]
    norm_num [price_val]
  rw [h]

/-- C4 (amended): the first quote in input order whose scan fully resolves
(`found`) wins; a candidate quote whose outcomes cannot be resolved is
skipped — later quotes are still considered — and a scan hitting the
exception path (`err`, an out-of-range price index) ends the whole match
with the neutral pair. -/
theorem scan_order_spec (fz : String → String → ℕ) (home_team away_team : String)
    (m : Market) (rest : List Market) :
    (try_market fz home_team away_team m = .skip →
      get_polymarket_probs fz home_team away_team (m :: rest) =
        get_polymarket_probs fz home_team away_team rest) ∧
    (∀ p, try_market fz home_team away_team m = .found p →
      get_polymarket_probs fz home_team away_team (m :: rest) = p) ∧
    (try_market fz home_team away_team m = .err →
      get_polymarket_probs fz home_team away_team (m :: rest) = (0.5, 0.5)) ∧
    (title_candidate fz home_team away_team m = true →
      ((resolve_outcomes fz home_team away_team m.outcomes).1 = none ∨
       (resolve_outcomes fz home_team away_team m.outcomes).2 = none) →
      try_market fz home_team away_team m = .skip) := by
  refine ⟨?_, ?_, ?_, ?_⟩
  · intro h
    simp [get_polymarket_probs, h]
  · intro p h
    simp [get_polymarket_probs, h]
  · intro h
    simp [get_polymarket_probs, h]
  · intro hc hres
    cases hq : m.question with
    | none => simp [title_candidate, hq] at hc
    | some q =>
      have h' : (found_in_title fz home_team (clean_title (pyLower q)) &&
          found_in_title fz away_team (clean_title (pyLower q))) = true := by
        simpa [title_candidate, hq] using hc
      simp only [try_market, hq]
      rw [if_pos (by simp [h'])]
      by_cases hlen : 2 ≤ m.outcomes.length ∧ 2 ≤ m.prices.length
      · rw [if_pos hlen]
        rcases hr : resolve_outcomes fz home_team away_team m.outcomes with ⟨ho, ha⟩
        rw [hr] at hres
        cases ho with
        | none => rfl
        | some hi =>
          cases ha with
          | none => rfl
          | some ai => simp at hres
      · rw [if_neg hlen]

theorem scan_order_spec_witness :
    try_market subScore "Lakers" "Celtics" mkt_unresolved = .skip ∧
    get_polymarket_probs subScore "Lakers" "Celtics" [mkt_unresolved, mkt_resolved] =
      get_polymarket_probs subScore "Lakers" "Celtics" [mkt_resolved] :=
  ⟨by decide,
   (scan_order_spec subScore "Lakers" "Celtics" mkt_unresolved [mkt_resolved]).1
     (by decide)⟩

/-- C5: the Market Matcher returns the neutral pair on the empty quote
list, and on every quote list none of whose quotes is a candidate (no
title fuzzy-matches both teams' name variants above 75). -/
theorem no_candidate_neutral (fz : String → String → ℕ)
    (home_team away_team : String) (markets : List Market)
    (h : ∀ m ∈ markets, title_candidate fz home_team away_team m = false) :
    get_polymarket_probs fz home_team away_team markets = (0.5, 0.5) ∧
    get_polymarket_probs fz home_team away_team [] = (0.5, 0.5) := by
  refine ⟨?_, rfl⟩
  induction markets with
  | nil => rfl
  | cons m rest ih =>
    have hskip : try_market fz home_team away_team m = .skip :=
      try_market_skip_of_not_candidate fz home_team away_team m (h m (by simp))
    rw [show get_polymarket_probs fz home_team away_team (m :: rest) =
        match try_market fz home_team away_team m with
        | .skip => get_polymarket_probs fz home_team away_team rest
        | .err => (0.5, 0.5)
        | .found p => p from rfl, hskip]
    exact ih fun m' hm' => h m' (List.mem_cons_of_mem _ hm')

theorem no_candidate_neutral_witness :
    (∀ m ∈ [mkt_other], title_candidate subScore "Lakers" "Warriors" m = false) ∧
    get_polymarket_probs subScore "Lakers" "Warriors" [mkt_other] = (0.5, 0.5) :=
  ⟨by decide,
   (no_candidate_neutral subScore "Lakers" "Warriors" [mkt_other] (by decide)).1⟩

/-- C8: once both outcome indices are resolved in the matched quote, the
matcher returns the prices stored at those indices, except that a
missing (`none`) or falsy (zero) price is replaced by the default 0.5 and
any other price is returned as is. -/
theorem price_extraction_spec (fz : String → String → ℕ)
    (home_team away_team : String) (m : Market) (rest : List Market)
    (hi ai : ℕ) (hp ap : Option ℚ)
    (hcand : title_candidate fz home_team away_team m = true)
    (hlen : 2 ≤ m.outcomes.length ∧ 2 ≤ m.prices.length)
    (hres : resolve_outcomes fz home_team away_team m.outcomes = (some hi, some ai))
    (hhp : m.prices.get? hi = some hp) (hap : m.prices.get? ai = some ap) :
    get_polymarket_probs fz home_team away_team (m :: rest) =
      (price_val hp, price_val ap) ∧
    price_val none = 0.5 ∧ price_val (some 0) = 0.5 ∧
    ∀ v : ℚ, v ≠ 0 → price_val (some v) = v := by
  refine ⟨?_, rfl, by norm_num [price_val], fun v hv => by simp [price_val, hv]⟩
  have hfound : try_market fz home_team away_team m =
      .found (price_val hp, price_val ap) := by
    cases hq : m.question with
    | none => simp [title_candidate, hq] at hcand
    | some q =>
      have h' : (found_in_title fz home_team (clean_title (pyLower q)) &&
          found_in_title fz away_team (clean_title (pyLower q))) = true := by
        simpa [title_candidate, hq] using hcand
      simp only [try_market, hq]
      rw [if_pos (by simp [h']), if_pos hlen, hres]
      simp only [← List.get?_eq_getElem?, hhp, hap]
  simp [get_polymarket_probs, hfound]

theorem price_extraction_spec_witness :
    resolve_outcomes subScore "Lakers" "Celtics" mkt_resolved.outcomes = (some 0, some 1) ∧
    get_polymarket_probs subScore "Lakers" "Celtics" [mkt_resolved] =
      (price_val (some 0.7), price_val (some 0.3)) ∧
    price_val (some 0.7) = 0.7 :=
  ⟨by decide,
   (price_extraction_spec subScore "Lakers" "Celtics" mkt_resolved [] 0 1
     (some 0.7) (some 0.3) (by decide) (by decide) (by decide) rfl rfl).1,
   (price_extraction_spec subScore "Lakers" "Celtics" mkt_resolved [] 0 1
     (some 0.7) (some 0.3) (by decide) (by decide) (by decide) rfl rfl).2.2.2
     0.7 (by norm_num)⟩

/-- C9: on the empty game list the Report Builder is bypassed and the
fixed no-games message is the one delivered; on every non-empty game list
the delivered message is the built report, whose line list always has the
3 header lines plus 6 lines per game (never empty or garbled). -/
theorem main_message_spec (fz : String → String → ℕ) (markets : List Market)
    (pct : ℝ → String) (fmt1 : ℚ → String) (now : String) (games : List Game) :
    main_message fz markets pct fmt1 now [] = no_games_message ∧
    no_games_message = "üèÄ NBA Value Betting Report\n\nNo games scheduled for today." ∧
    (games ≠ [] →
      main_message fz markets pct fmt1 now games =
        build_report fz markets pct fmt1 now games) ∧
    (report_lines fz markets pct fmt1 now games).length = 3 + 6 * games.length := by
  refine ⟨rfl, rfl, ?_, ?_⟩
  · intro hne
    rw [main_message, if_neg (by simpa using hne)]
  · have hblocks : ∀ gs : List Game,
        ((gs.map (game_block fz markets pct fmt1)).flatten).length = 6 * gs.length := by
      intro gs
      induction gs with
      | nil => rfl
      | cons g rest ih =>
        simp only [List.map_cons, List.flatten_cons, List.length_append, ih,
          List.length_cons]
        rw [show (game_block fz markets pct fmt1 g).length = 6 from rfl]
        ring
    rw [report_lines, List.length_append, hblocks]
    rfl

theorem main_message_spec_witness :
    ([demo_game] : List Game) ≠ [] ∧
    main_message subScore [] (fun _ => "") (fun _ => "") "" [demo_game] =
      build_report subScore [] (fun _ => "") (fun _ => "") "" [demo_game] :=
  ⟨List.cons_ne_nil _ _,
   (main_message_spec subScore [] (fun _ => "") (fun _ => "") "" [demo_game]).2.2.1
     (List.cons_ne_nil _ _)⟩

end NBABot
